import Mathlib

/-!
Verification of the `gen_pipeline` utilities.

This file gives a shallow embedding, in Lean 4, of the two Python modules
`src/utils/process_yaml_api.py` (the Nested-Value Bridge) and
`src/utils/update_file_path.py` (the File Locator), and settles the stated
properties of the specification against that embedding.

Modelling conventions:
* Parsed YAML / JSON documents are Python objects; both are embedded as the
  single inductive type `PyVal` (`None`, booleans, integers, strings, lists,
  and string-keyed mappings in insertion order).  Numbers are modelled as
  integers; floating point is out of scope of every property treated here.
* Python dictionaries are association lists in insertion order with unique
  keys, looked up with `List.lookup`.
* Fallible I/O (file read, HTTP dispatch, file write) is supplied by an
  explicit environment record; exceptions are values of `PyErr`.
* Functions whose Python originals recurse through nested containers are
  written with an explicit fuel argument (initialised from a size bound) so
  that they stay structurally recursive and kernel-evaluable.
-/

namespace GenPipeline

/-- A Python value as produced by `yaml.safe_load` or `json.loads`:
`None`, `bool`, `int`, `str`, `list`, or a string-keyed `dict`
(insertion order preserved).  Floats are out of scope and omitted. -/
inductive PyVal where
  | null
  | bool (b : Bool)
  | int (n : Int)
  | str (s : String)
  | list (xs : List PyVal)
  | dict (kvs : List (String × PyVal))

/-- `get_nested_value(data, keys)` from `process_yaml_api.py`: walk the key
path; at each step descend if the current value is a dict containing the key,
otherwise return `None`.  The loop translated to recursion on the key list. -/
def getNestedValue (data : PyVal) : List String → PyVal
  | [] => data
  | k :: ks =>
    match data with
    | .dict kvs =>
      match kvs.lookup k with
      | some v => getNestedValue v ks
      | none => .null
    | _ => .null

/-- `create_nested_structure(keys, value)` from `process_yaml_api.py`: an
empty key list returns the value itself; otherwise each key but the last
opens a fresh singleton dict and the last key holds the value.  The Python
loop mutating a `current` pointer is translated to recursion on the keys. -/
def createNestedStructure : List String → PyVal → PyVal
  | [], v => v
  | k :: ks, v => .dict [(k, createNestedStructure ks v)]

/-- Modelled from the spec: the "minimal nested mapping skeleton" for a key
path — each key but the last creates an empty nested mapping and the last
key holds the value; an empty path yields the raw value.  Stated separately
from `createNestedStructure` so the two can be compared. -/
def minimalSkeleton : List String → PyVal → PyVal
  | [], v => v
  | k :: ks, v => .dict [(k, minimalSkeleton ks v)]

/-- Modelled from the spec: successful resolution of a key path, keeping the
"found" / "not found" distinction that the code's `None` signal collapses.
`resolves d p = some v` means the path `p` genuinely leads to the stored
value `v` (which may itself be `None`). -/
def resolves (data : PyVal) : List String → Option PyVal
  | [] => some data
  | k :: ks =>
    match data with
    | .dict kvs =>
      match kvs.lookup k with
      | some v => resolves v ks
      | none => none
    | _ => none

/-- A genuinely resolving path is followed faithfully by `getNestedValue`. -/
theorem getNestedValue_of_resolves (d : PyVal) (p : List String) (v : PyVal)
    (h : resolves d p = some v) : getNestedValue d p = v := by
  induction p generalizing d with
  | nil => simpa [resolves, getNestedValue] using h
  | cons k ks ih =>
    cases d with
    | dict kvs =>
      simp only [resolves, getNestedValue] at h ⊢
      cases hl : kvs.lookup k with
      | none => simp [hl] at h
      | some w => simp only [hl] at h ⊢; exact ih w h
    | null => exact absurd h (by simp [resolves])
    | bool b => exact absurd h (by simp [resolves])
    | int n => exact absurd h (by simp [resolves])
    | str s => exact absurd h (by simp [resolves])
    | list xs => exact absurd h (by simp [resolves])

/-- Claim C1, counterexample: on the empty key path, `get_nested_value`
does NOT signal not-found — the loop body never runs and the function
returns the whole document, here `{"a": 1}`, which is not `None`. -/
theorem claim1_counterexample :
    getNestedValue (PyVal.dict [("a", PyVal.int 1)]) [] =
      PyVal.dict [("a", PyVal.int 1)] ∧
    PyVal.dict [("a", PyVal.int 1)] ≠ PyVal.null :=
  ⟨rfl, fun h => nomatch h⟩

/-- Claim C1 (amended): a key path of zero length is valid for BOTH
directions: `get_nested_value` on an empty key list returns the whole input
document unchanged (it signals not-found only when the document itself is
`None`), and `create_nested_structure` on an empty key list returns the raw
value itself as the whole document. -/
theorem claim1_amended (d v : PyVal) :
    getNestedValue d [] = d ∧ createNestedStructure [] v = v :=
  ⟨rfl, rfl⟩

/-- Claim C4: whenever `get_nested_value(D, P)` succeeds with value `v`,
`create_nested_structure(P, v)` is exactly the minimal nested mapping
skeleton for `P` holding `v` at its leaf, and extracting along `P` from the
reconstructed document gives back `v`. -/
theorem claim4_roundtrip (d : PyVal) (p : List String) (v : PyVal)
    (hget : getNestedValue d p = v) (hok : v ≠ PyVal.null) :
    createNestedStructure p v = minimalSkeleton p v ∧
    getNestedValue (createNestedStructure p v) p = v := by
  refine ⟨?_, ?_⟩
  · clear hget hok
    induction p with
    | nil => rfl
    | cons k ks ih => simp [createNestedStructure, minimalSkeleton, ih]
  · clear hget hok
    induction p with
    | nil => rfl
    | cons k ks ih =>
      simp [createNestedStructure, getNestedValue, List.lookup, ih]

/-- Claim C4, witness: on the document `{a: {b: "hello"}}` and path
`[a, b]`, extraction succeeds with `"hello"`, reconstruction equals the
minimal skeleton, and the round trip preserves the leaf. -/
theorem claim4_roundtrip_witness :
    createNestedStructure ["a", "b"] (PyVal.str "hello") =
      minimalSkeleton ["a", "b"] (PyVal.str "hello") ∧
    getNestedValue
      (createNestedStructure ["a", "b"] (PyVal.str "hello")) ["a", "b"] =
      PyVal.str "hello" :=
  claim4_roundtrip
    (PyVal.dict [("a", PyVal.dict [("b", PyVal.str "hello")])])
    ["a", "b"] (PyVal.str "hello") rfl (fun h => nomatch h)

/-! ## Strings and the placeholder substitution of the Bridge -/

/-- The double-quote character. -/
def chQuote : Char := Char.ofNat 34

/-- The single-quote character. -/
def chApos : Char := Char.ofNat 39

/-- The opening-brace character. -/
def chLBrace : Char := Char.ofNat 123

/-- The closing-brace character. -/
def chRBrace : Char := Char.ofNat 125

/-- `pat` is a leading segment of `s` (Python `str.startswith`). -/
def isPre : List Char → List Char → Bool
  | [], _ => true
  | _ :: _, [] => false
  | a :: as, b :: bs => a == b && isPre as bs

/-- `tok` occurs contiguously somewhere inside `s`. -/
def isSub (tok : List Char) : List Char → Bool
  | [] => tok.isEmpty
  | c :: rest => isPre tok (c :: rest) || isSub tok rest

/-- Fuelled core of Python `str.replace(old, new)`: scan left to right,
replacing non-overlapping occurrences; replaced text is not rescanned.
One unit of fuel is spent per step and each step consumes at least one
character, so fuel equal to the length of the scanned string suffices. -/
def replAllFuel (tok v : List Char) : Nat → List Char → List Char
  | 0, s => s
  | _ + 1, [] => []
  | n + 1, c :: rest =>
    if isPre tok (c :: rest) then
      v ++ replAllFuel tok v n (List.drop (tok.length - 1) rest)
    else
      c :: replAllFuel tok v n rest

/-- Python `s.replace(tok, v)` for a non-empty `tok`. -/
def replAll (tok v s : List Char) : List Char := replAllFuel tok v s.length s

/-- `tok` has no non-trivial border: no proper non-empty leading segment of
`tok` is also a trailing segment.  Rules out occurrences of `tok` that
straddle a boundary with a fresh copy of `tok`. -/
def borderFree (tok : List Char) : Prop :=
  ∀ k, k < tok.length → 0 < k → tok.take k ≠ tok.drop (tok.length - k)

theorem replAllFuel_nil (tok v : List Char) (f : Nat) :
    replAllFuel tok v f [] = [] := by
  cases f <;> rfl

theorem replAllFuel_congr (tok v : List Char) (f₁ : Nat) :
    ∀ (f₂ : Nat) (s : List Char), s.length ≤ f₁ → s.length ≤ f₂ →
      replAllFuel tok v f₁ s = replAllFuel tok v f₂ s := by
  induction f₁ with
  | zero =>
    intro f₂ s h₁ _
    rw [List.length_eq_zero.mp (Nat.le_zero.mp h₁), replAllFuel_nil,
      replAllFuel_nil]
  | succ n ih =>
    intro f₂ s h₁ h₂
    cases s with
    | nil => rw [replAllFuel_nil, replAllFuel_nil]
    | cons c rest =>
      cases f₂ with
      | zero => exact absurd h₂ (by simp)
      | succ m =>
        simp only [replAllFuel]
        by_cases hp : isPre tok (c :: rest) = true
        · simp only [hp, if_true]
          refine congrArg (v ++ ·) (ih m _ ?_ ?_) <;>
            · rw [List.length_drop]
              simp only [List.length_cons] at h₁ h₂
              omega
        · simp only [hp, if_false, Bool.false_eq_true]
          refine congrArg (c :: ·) (ih m rest ?_ ?_) <;>
            · simp only [List.length_cons] at h₁ h₂
              omega

/-- One-step unfolding of `replAll` on a non-empty string. -/
theorem replAll_cons (tok v : List Char) (c : Char) (rest : List Char) :
    replAll tok v (c :: rest) =
      if isPre tok (c :: rest) then
        v ++ replAll tok v (List.drop (tok.length - 1) rest)
      else
        c :: replAll tok v rest := by
  show replAllFuel tok v (rest.length + 1) (c :: rest) = _
  simp only [replAllFuel]
  by_cases hp : isPre tok (c :: rest) = true
  · simp only [hp, if_true]
    unfold replAll
    exact congrArg (v ++ ·)
      (replAllFuel_congr tok v rest.length _ _
        (by rw [List.length_drop]; omega) (Nat.le_refl _))
  · simp only [hp, if_false, Bool.false_eq_true]
    rfl

/-- A string without any occurrence of `tok` is left unchanged. -/
theorem replAll_of_not_sub (tok v : List Char) :
    ∀ s : List Char, isSub tok s = false → replAll tok v s = s := by
  intro s
  induction s with
  | nil => intro _; rfl
  | cons c rest ih =>
    intro h
    simp only [isSub, Bool.or_eq_false_iff] at h
    rw [replAll_cons, h.1, if_neg (by simp), ih h.2]

theorem isPre_iff_take (x : List Char) :
    ∀ s : List Char, isPre x s = true ↔ s.take x.length = x := by
  induction x with
  | nil => intro s; simp [isPre]
  | cons a as ih =>
    intro s
    cases s with
    | nil => simp [isPre]
    | cons b bs =>
      simp only [isPre, Bool.and_eq_true, beq_iff_eq, List.length_cons,
        List.take_succ_cons, List.cons.injEq, ih bs]
      tauto

theorem isPre_append_self (x y : List Char) : isPre x (x ++ y) = true := by
  rw [isPre_iff_take, List.take_left]

theorem isSub_of_isPre (tok a : List Char) (htok : tok ≠ [])
    (h : isPre tok a = true) : isSub tok a = true := by
  cases a with
  | nil =>
    cases tok with
    | nil => exact absurd rfl htok
    | cons t ts => simp [isPre] at h
  | cons c rest => simp [isSub, h]

/-- Core no-overlap fact: if `tok` is border free and does not occur in the
non-empty string `a`, then `tok` is not a leading segment of
`a ++ tok ++ r` — the first genuine occurrence of `tok` starts exactly
after `a`. -/
theorem isPre_across_false (tok a r : List Char) (htok : tok ≠ [])
    (hbf : borderFree tok) (ha : a ≠ []) (hsub : isSub tok a = false) :
    isPre tok (a ++ tok ++ r) = false := by
  by_contra hcon
  rw [Bool.not_eq_false, isPre_iff_take] at hcon
  by_cases hlen : tok.length ≤ a.length
  · have htake : (a ++ (tok ++ r)).take tok.length = a.take tok.length := by
      rw [List.take_append_eq_append_take,
        Nat.sub_eq_zero_of_le hlen, List.take_zero, List.append_nil]
    rw [List.append_assoc, htake] at hcon
    have : isPre tok a = true := by
      rw [isPre_iff_take, hcon]
    rw [isSub_of_isPre tok a htok this] at hsub
    exact absurd hsub (by simp)
  · push_neg at hlen
    have hk : tok = a ++ tok.take (tok.length - a.length) := by
      rw [List.append_assoc, List.take_append_eq_append_take,
        List.take_of_length_le (Nat.le_of_lt hlen),
        List.take_append_eq_append_take,
        Nat.sub_eq_zero_of_le (Nat.sub_le _ _), List.take_zero,
        List.append_nil] at hcon
      exact hcon.symm
    have hdrop : tok.drop a.length = tok.take (tok.length - a.length) := by
      conv_lhs => rw [hk]
      rw [List.drop_left]
    have h0 : 0 < tok.length - a.length := by omega
    have h1 : tok.length - a.length < tok.length := by
      have : 0 < a.length := List.length_pos.mpr ha
      omega
    have h2 : tok.length - (tok.length - a.length) = a.length := by omega
    exact hbf (tok.length - a.length) h1 h0 (by rw [h2, ← hdrop])

/-- Crossing the first occurrence: `replace` on `a ++ tok ++ r` keeps `a`,
substitutes that occurrence of `tok`, and continues on `r`. -/
theorem replAll_across (tok v : List Char) (htok : tok ≠ [])
    (hbf : borderFree tok) :
    ∀ a r : List Char, isSub tok a = false →
      replAll tok v (a ++ tok ++ r) = a ++ v ++ replAll tok v r := by
  intro a
  induction a with
  | nil =>
    intro r _
    cases tok with
    | nil => exact absurd rfl htok
    | cons t ts =>
      have hshape : ([] : List Char) ++ (t :: ts) ++ r = t :: (ts ++ r) := by
        simp
      rw [hshape, replAll_cons]
      have : isPre (t :: ts) (t :: (ts ++ r)) = true := by
        have := isPre_append_self (t :: ts) r
        simpa using this
      rw [if_pos this]
      simp only [List.length_cons, Nat.add_sub_cancel, List.drop_left ts r]
      simp
  | cons c a' ih =>
    intro r hsub
    have hfalse : isPre tok (c :: (a' ++ tok ++ r)) = false := by
      have h := isPre_across_false tok (c :: a') r htok hbf (by simp) hsub
      simpa using h
    simp only [isSub, Bool.or_eq_false_iff] at hsub
    have hshape : (c :: a') ++ tok ++ r = c :: (a' ++ tok ++ r) := by simp
    rw [hshape, replAll_cons, if_neg (by simp [← List.append_assoc, hfalse]),
      ih r hsub.2]
    simp

/-- Separator-joined concatenation of string segments:
`joinSep sep [s1, s2, s3] = s1 ++ sep ++ s2 ++ sep ++ s3`. -/
def joinSep (sep : List Char) : List (List Char) → List Char
  | [] => []
  | [x] => x
  | x :: xs => x ++ sep ++ joinSep sep xs

/-- `replace` substitutes every occurrence of a border-free token: if a
string is the `tok`-separated join of token-free segments then replacing
`tok` by `v` yields the `v`-separated join of the same segments. -/
theorem replAll_joinSep (tok v : List Char) (htok : tok ≠ [])
    (hbf : borderFree tok) :
    ∀ ss : List (List Char), (∀ s ∈ ss, isSub tok s = false) →
      replAll tok v (joinSep tok ss) = joinSep v ss := by
  intro ss
  induction ss with
  | nil => intro _; rfl
  | cons s rest ih =>
    intro hfree
    cases rest with
    | nil => simpa [joinSep] using replAll_of_not_sub tok v s (hfree s (by simp))
    | cons s₂ rest₂ =>
      rw [show joinSep tok (s :: s₂ :: rest₂) =
            s ++ tok ++ joinSep tok (s₂ :: rest₂) from rfl,
        replAll_across tok v htok hbf s _ (hfree s (by simp)),
        ih (fun x hx => hfree x (by simp [hx]))]
      rfl

/-! ### `json.dumps` and `str()` as used by the Bridge -/

/-- Lower-case hexadecimal digit. -/
def hexDigit (n : Nat) : Char :=
  if n < 10 then Char.ofNat (48 + n) else Char.ofNat (87 + n)

/-- A `\uXXXX` escape for a BMP code point. -/
def uEscape (n : Nat) : List Char :=
  ['\\', 'u', hexDigit (n / 4096 % 16), hexDigit (n / 256 % 16),
    hexDigit (n / 16 % 16), hexDigit (n % 16)]

/-- One character of `json.dumps` string escaping with `ensure_ascii=True`
(the Python default): `"` and `\` and the common control characters get
two-character escapes, every other character outside printable ASCII gets a
`\uXXXX` escape (code points above the BMP, which Python renders as
surrogate pairs, are out of scope).  Printable ASCII stays itself. -/
def jsonEscapeChar (c : Char) : List Char :=
  if c = chQuote then ['\\', chQuote]
  else if c = '\\' then ['\\', '\\']
  else if c = Char.ofNat 10 then ['\\', 'n']
  else if c = Char.ofNat 13 then ['\\', 'r']
  else if c = Char.ofNat 9 then ['\\', 't']
  else if c = Char.ofNat 8 then ['\\', 'b']
  else if c = Char.ofNat 12 then ['\\', 'f']
  else if c.toNat < 32 ∨ 126 < c.toNat then uEscape c.toNat
  else [c]

/-- `json.dumps` string-body escaping. -/
def jsonEscape (cs : List Char) : List Char := (cs.map jsonEscapeChar).flatten

mutual

/-- `json.dumps(val)` with the default separators `", "` and `": "`,
dictionary keys in insertion order. -/
def jsonDumps : PyVal → List Char
  | .null => "null".data
  | .bool true => "true".data
  | .bool false => "false".data
  | .int k => (toString k).data
  | .str s => chQuote :: jsonEscape s.data ++ [chQuote]
  | .list xs => '[' :: joinSep ", ".data (jsonDumpsList xs) ++ [']']
  | .dict kvs => chLBrace :: joinSep ", ".data (jsonDumpsEntries kvs) ++ [chRBrace]

/-- The serialized elements of a JSON array. -/
def jsonDumpsList : List PyVal → List (List Char)
  | [] => []
  | x :: xs => jsonDumps x :: jsonDumpsList xs

/-- The serialized `"key": value` entries of a JSON object. -/
def jsonDumpsEntries : List (String × PyVal) → List (List Char)
  | [] => []
  | kv :: kvs =>
    ((chQuote :: jsonEscape kv.1.data ++ [chQuote]) ++ ": ".data ++
      jsonDumps kv.2) :: jsonDumpsEntries kvs

end

mutual

/-- Python `repr()` for the container cases of `str()`.  String values are
shown single-quoted; the escaping Python applies to quotes and control
characters inside `repr` of a string is out of scope (no property treated
here depends on it). -/
def pyRepr : PyVal → List Char
  | .null => "None".data
  | .bool true => "True".data
  | .bool false => "False".data
  | .int k => (toString k).data
  | .str s => chApos :: s.data ++ [chApos]
  | .list xs => '[' :: joinSep ", ".data (pyReprList xs) ++ [']']
  | .dict kvs => chLBrace :: joinSep ", ".data (pyReprEntries kvs) ++ [chRBrace]

/-- The shown elements of a Python list. -/
def pyReprList : List PyVal → List (List Char)
  | [] => []
  | x :: xs => pyRepr x :: pyReprList xs

/-- The shown `'key': value` entries of a Python dict. -/
def pyReprEntries : List (String × PyVal) → List (List Char)
  | [] => []
  | kv :: kvs =>
    ((chApos :: kv.1.data ++ [chApos]) ++ ": ".data ++ pyRepr kv.2) ::
      pyReprEntries kvs

end

/-- Python `str(val)`: a string is itself, everything else shows as its
`repr`/standard textual form (`None`, `True`, digits, bracketed
containers). -/
def pyStr : PyVal → List Char
  | .str s => s.data
  | v => pyRepr v

instance (tok : List Char) : Decidable (borderFree tok) := by
  unfold borderFree
  infer_instance

/-- The literal placeholder token of the Bridge's body templates. -/
def placeholderTok : List Char := "{input_text}".data

/-- The serialized request-body template after placeholder substitution:
`json.dumps(request_body_template).replace('{input_text}', v)` from
`process_yaml_with_api`, with `v` the already-stringified extracted
value. -/
def substitutedTemplate (t : PyVal) (v : List Char) : List Char :=
  replAll placeholderTok v (jsonDumps t)

/-- Claim C6: when a request-body template is supplied, every occurrence of
the literal placeholder token `'\x7binput_text\x7d'` anywhere in the
template's JSON-serialized form — multiple occurrences, occurrences nested
inside strings — is replaced by the identical stringified extracted value:
if the serialized template is the placeholder-separated join of
placeholder-free segments, the substituted form is the join of the same
segments separated by the value. -/
theorem claim6_template_substitution (t : PyVal) (v : List Char)
    (ss : List (List Char))
    (hfree : ∀ s ∈ ss, isSub placeholderTok s = false)
    (hdump : jsonDumps t = joinSep placeholderTok ss) :
    substitutedTemplate t v = joinSep v ss := by
  unfold substitutedTemplate
  rw [hdump]
  exact replAll_joinSep placeholderTok v (by decide) (by decide) ss hfree

/-- The template of the C6 witness: the placeholder appears twice, once at
top level and once nested inside a string of an inner mapping. -/
def templateW : PyVal :=
  PyVal.dict
    [("query", PyVal.str "{input_text}"),
     ("opts", PyVal.dict [("inner", PyVal.str "pre {input_text} post")])]

/-- The placeholder-free segments of `json.dumps templateW` around its two
placeholder occurrences. -/
def segmentsW : List (List Char) :=
  ["\x7b\"query\": \"".data,
   "\", \"opts\": \x7b\"inner\": \"pre ".data,
   " post\"\x7d\x7d".data]

/-- Claim C6, witness: on a concrete template containing the placeholder
twice (once nested inside an inner mapping's string), both occurrences of
the placeholder in the serialized form are replaced by the same value. -/
theorem claim6_template_substitution_witness :
    substitutedTemplate templateW "HELLO".data =
      joinSep "HELLO".data segmentsW :=
  claim6_template_substitution templateW "HELLO".data segmentsW
    (by decide) (by decide)

/-! ## `json.loads`

A recursive-descent reader for JSON text, used by the Bridge to re-parse a
substituted body template.  Mutually recursive descents carry a fuel
argument (one unit per descent step; ample fuel is supplied at the top
level, and exhaustion reads as a parse failure).  Numbers are integers —
floating point is out of scope.  Object keys are kept in textual order. -/

/-- Drop leading JSON whitespace. -/
def skipWs : List Char → List Char
  | [] => []
  | c :: rest =>
    if c = ' ' ∨ c = Char.ofNat 9 ∨ c = Char.ofNat 10 ∨ c = Char.ofNat 13 then
      skipWs rest
    else c :: rest

/-- The value of one hexadecimal digit. -/
def parseHex (c : Char) : Option Nat :=
  if 48 ≤ c.toNat ∧ c.toNat ≤ 57 then some (c.toNat - 48)
  else if 97 ≤ c.toNat ∧ c.toNat ≤ 102 then some (c.toNat - 87)
  else if 65 ≤ c.toNat ∧ c.toNat ≤ 70 then some (c.toNat - 55)
  else none

/-- Read one string escape, positioned just after the backslash. -/
def parseEscape : List Char → Option (Char × List Char)
  | [] => none
  | e :: r =>
    if e = chQuote then some (chQuote, r)
    else if e = '\\' then some ('\\', r)
    else if e = '/' then some ('/', r)
    else if e = 'b' then some (Char.ofNat 8, r)
    else if e = 'f' then some (Char.ofNat 12, r)
    else if e = 'n' then some (Char.ofNat 10, r)
    else if e = 'r' then some (Char.ofNat 13, r)
    else if e = 't' then some (Char.ofNat 9, r)
    else if e = 'u' then
      match r with
      | h₁ :: h₂ :: h₃ :: h₄ :: r₂ =>
        match parseHex h₁, parseHex h₂, parseHex h₃, parseHex h₄ with
        | some a, some b, some c, some d =>
          some (Char.ofNat (4096 * a + 256 * b + 16 * c + d), r₂)
        | _, _, _, _ => none
      | _ => none
    else none

/-- Read a string body up to its closing quote. -/
def parseStrBodyF : Nat → List Char → Option (List Char × List Char)
  | 0, _ => none
  | n + 1, s =>
    match s with
    | [] => none
    | c :: r =>
      if c = chQuote then some ([], r)
      else if c = '\\' then
        match parseEscape r with
        | some (ch, r₂) =>
          match parseStrBodyF n r₂ with
          | some (cs, r₃) => some (ch :: cs, r₃)
          | none => none
        | none => none
      else
        match parseStrBodyF n r with
        | some (cs, r₃) => some (c :: cs, r₃)
        | none => none

/-- Consume a run of decimal digits into an accumulator. -/
def digitsLoop : Nat → List Char → Nat × List Char
  | acc, [] => (acc, [])
  | acc, c :: r =>
    if c.isDigit then digitsLoop (acc * 10 + (c.toNat - 48)) r
    else (acc, c :: r)

/-- Read an integer literal (optional leading minus, then digits). -/
def parseIntTok : List Char → Option (Int × List Char)
  | [] => none
  | c :: r =>
    if c = '-' then
      match r with
      | d :: _ =>
        if d.isDigit then
          let p := digitsLoop 0 r
          some (-(Int.ofNat p.1), p.2)
        else none
      | [] => none
    else if c.isDigit then
      let p := digitsLoop 0 (c :: r)
      some (Int.ofNat p.1, p.2)
    else none

mutual

/-- Read one JSON value.  Fuel bounds the nesting depth. -/
def parseValF : Nat → List Char → Option (PyVal × List Char)
  | 0, _ => none
  | n + 1, s =>
    match skipWs s with
    | [] => none
    | c :: r =>
      if c = chQuote then
        match parseStrBodyF (r.length + 1) r with
        | some (cs, r₂) => some (.str (String.mk cs), r₂)
        | none => none
      else if c = '[' then
        match skipWs r with
        | c₂ :: r₂ =>
          if c₂ = ']' then some (.list [], r₂)
          else
            match parseItemsF n (c₂ :: r₂) with
            | some (xs, r₃) => some (.list xs, r₃)
            | none => none
        | [] => none
      else if c = chLBrace then
        match skipWs r with
        | c₂ :: r₂ =>
          if c₂ = chRBrace then some (.dict [], r₂)
          else
            match parseEntriesF n (c₂ :: r₂) with
            | some (kvs, r₃) => some (.dict kvs, r₃)
            | none => none
        | [] => none
      else if c = 'n' then
        match r with
        | 'u' :: 'l' :: 'l' :: r₂ => some (.null, r₂)
        | _ => none
      else if c = 't' then
        match r with
        | 'r' :: 'u' :: 'e' :: r₂ => some (.bool true, r₂)
        | _ => none
      else if c = 'f' then
        match r with
        | 'a' :: 'l' :: 's' :: 'e' :: r₂ => some (.bool false, r₂)
        | _ => none
      else
        match parseIntTok (c :: r) with
        | some (k, r₂) => some (.int k, r₂)
        | none => none

/-- Read the comma-separated items of a non-empty array, including the
closing bracket. -/
def parseItemsF : Nat → List Char → Option (List PyVal × List Char)
  | 0, _ => none
  | n + 1, s =>
    match parseValF n s with
    | some (v, r) =>
      match skipWs r with
      | c :: r₂ =>
        if c = ',' then
          match parseItemsF n r₂ with
          | some (xs, r₃) => some (v :: xs, r₃)
          | none => none
        else if c = ']' then some ([v], r₂)
        else none
      | [] => none
    | none => none

/-- Read the comma-separated entries of a non-empty object, including the
closing brace. -/
def parseEntriesF : Nat → List Char → Option (List (String × PyVal) × List Char)
  | 0, _ => none
  | n + 1, s =>
    match skipWs s with
    | c :: r =>
      if c = chQuote then
        match parseStrBodyF (r.length + 1) r with
        | some (kcs, r₂) =>
          match skipWs r₂ with
          | c₂ :: r₃ =>
            if c₂ = ':' then
              match parseValF n r₃ with
              | some (v, r₄) =>
                match skipWs r₄ with
                | c₃ :: r₅ =>
                  if c₃ = ',' then
                    match parseEntriesF n r₅ with
                    | some (kvs, r₆) => some ((String.mk kcs, v) :: kvs, r₆)
                    | none => none
                  else if c₃ = chRBrace then some ([(String.mk kcs, v)], r₅)
                  else none
                | [] => none
              | none => none
            else none
          | [] => none
        | none => none
      else none
    | [] => none

end

/-- `json.loads(s)`: one complete JSON value, then only whitespace. -/
def pyLoads (s : List Char) : Option PyVal :=
  match parseValF (s.length + 1) s with
  | some (v, r) => if (skipWs r).isEmpty then some v else none
  | none => none

/-! ## The Bridge: `process_yaml_with_api` -/

/-- The exception kinds distinguished by the `except` clauses of
`process_yaml_with_api`: `FileNotFoundError`, `requests.RequestException`
(which also covers non-2xx statuses raised by `raise_for_status`),
`yaml.YAMLError`, and the catch-all `Exception` (JSON decode errors, write
failures, anything else). -/
inductive PyErr where
  | fileNotFound
  | requestExc
  | yamlError
  | otherExc
  deriving DecidableEq

/-- One HTTP request as handed to the `requests` library: method, URL,
headers, query parameters, and an optional JSON body. -/
structure Request where
  method : String
  url : String
  headers : List (String × String)
  params : List (String × PyVal)
  body : Option PyVal

/-- The outside world as seen by one call of `process_yaml_with_api`:
the outcome of reading and YAML-parsing the input file, the outcome of
dispatching a request (status check and response-body JSON parse
included), and the outcome of writing the output file. -/
structure Env where
  readFile : Except PyErr PyVal
  respond : Request → Except PyErr PyVal
  write : PyVal → Except PyErr Unit

/-- The caller-supplied arguments of `process_yaml_with_api`.  `none` for
an optional argument models Python `None`. -/
structure Args where
  inputKeys : List String
  outputKeys : List String
  apiUrl : String
  apiMethod : String
  apiHeaders : Option (List (String × String))
  apiParams : Option (List (String × PyVal))
  requestBodyTemplate : Option PyVal

/-- Python truthiness of a value, as used by `or` and by
`if request_body_template:`. -/
def pyTruthy : PyVal → Bool
  | .null => false
  | .bool b => b
  | .int n => n != 0
  | .str s => !s.isEmpty
  | .list xs => !xs.isEmpty
  | .dict kvs => !kvs.isEmpty

/-- Whether a value is Python `None` (`is None`). -/
def PyVal.isNull : PyVal → Bool
  | .null => true
  | _ => false

/-- Python `str.upper()` (ASCII suffices for HTTP method names). -/
def pyUpper (s : String) : String := String.mk (s.data.map Char.toUpper)

/-- `api_headers or {'Content-Type': 'application/json'}`: the default
applies when the argument is `None` or an empty (falsy) dict. -/
def headersOr (h : Option (List (String × String))) : List (String × String) :=
  match h with
  | some l => if l.isEmpty then [("Content-Type", "application/json")] else l
  | none => [("Content-Type", "application/json")]

/-- `dict.update`: keys already present keep their position and take the
updating dict's value; new keys are appended in the updating dict's
order. -/
def dictUpdate (a b : List (String × PyVal)) : List (String × PyVal) :=
  a.map (fun kv =>
    match b.lookup kv.1 with
    | some v => (kv.1, v)
    | none => kv) ++
  b.filter (fun kv => (a.lookup kv.1).isNone)

/-- `params = api_params or {}` as a dictionary content. -/
def paramsBase (p : Option (List (String × PyVal))) : List (String × PyVal) :=
  p.getD []

/-- The content of the caller's `api_params` object after the GET branch:
`params = api_params or {}` aliases the caller's dictionary exactly when
that argument is a non-empty (truthy) dict, so the subsequent
`params.update(request_body)` writes through to the caller's object; an
absent or empty `api_params` leaves the caller's object untouched. -/
def paramsAfterGet (p : Option (List (String × PyVal)))
    (bodyKvs : List (String × PyVal)) : Option (List (String × PyVal)) :=
  match p with
  | none => none
  | some d => if d.isEmpty then some d else some (dictUpdate d bodyKvs)

/-- Build the request body: with a (truthy) template, substitute the
placeholder in the serialized template and re-parse it (a failed re-parse
is a `json` exception, caught by the catch-all clause); otherwise the
default body `{"text": input_text}`. -/
def buildBody (template : Option PyVal) (inputText : PyVal) :
    Except PyErr PyVal :=
  match template with
  | some t =>
    if pyTruthy t then
      match pyLoads (substitutedTemplate t (pyStr inputText)) with
      | some v => .ok v
      | none => .error .otherExc
    else .ok (.dict [("text", inputText)])
  | none => .ok (.dict [("text", inputText)])

/-- What the `try` block of `process_yaml_with_api` produces: a normal
return value or a raised exception, together with the request dispatched
(if the flow reached the `requests` call), the final content of the
caller's `api_params` object, and the diagnostics printed so far. -/
structure TryOut where
  result : Except PyErr Bool
  dispatched : Option Request
  paramsAfter : Option (List (String × PyVal))
  messages : List String

/-- Dispatch the request and run the tail of the `try` block: check the
response, build the nested output document, and write it. -/
def finishDispatch (env : Env) (a : Args) (req : Request)
    (paramsAfter : Option (List (String × PyVal)))
    (msgs : List String) : TryOut :=
  match env.respond req with
  | .error e =>
    { result := .error e, dispatched := some req,
      paramsAfter := paramsAfter, messages := msgs }
  | .ok apiResult =>
    match env.write (createNestedStructure a.outputKeys apiResult) with
    | .error e =>
      { result := .error e, dispatched := some req,
        paramsAfter := paramsAfter,
        messages := msgs ++ ["api response received"] }
    | .ok _ =>
      { result := .ok true, dispatched := some req,
        paramsAfter := paramsAfter,
        messages := msgs ++ ["api response received", "result saved"] }

/-- The `try` block of `process_yaml_with_api`, step for step: read and
parse the input file, extract along the input key path (`None` means
failure and an early `return False`), build headers and body, branch on
the upper-cased method (GET merges the body into the query parameters and
sends no body; anything else sends the body as payload with the explicit
parameters alongside), dispatch, and write the nested output document. -/
def tryBody (env : Env) (a : Args) : TryOut :=
  match env.readFile with
  | .error e =>
    { result := .error e, dispatched := none, paramsAfter := a.apiParams,
      messages := [] }
  | .ok inputData =>
    let inputText := getNestedValue inputData a.inputKeys
    if inputText.isNull then
      { result := .ok false, dispatched := none, paramsAfter := a.apiParams,
        messages := ["value not found at input key path"] }
    else
      match buildBody a.requestBodyTemplate inputText with
      | .error e =>
        { result := .error e, dispatched := none,
          paramsAfter := a.apiParams, messages := ["extracted input text"] }
      | .ok requestBody =>
        if pyUpper a.apiMethod = "GET" then
          match requestBody with
          | .dict bodyKvs =>
            finishDispatch env a
              { method := "GET", url := a.apiUrl,
                headers := headersOr a.apiHeaders,
                params := dictUpdate (paramsBase a.apiParams) bodyKvs,
                body := none }
              (paramsAfterGet a.apiParams bodyKvs)
              ["extracted input text", "api call"]
          | _ =>
            { result := .error .otherExc, dispatched := none,
              paramsAfter := a.apiParams,
              messages := ["extracted input text", "api call"] }
        else
          finishDispatch env a
            { method := pyUpper a.apiMethod, url := a.apiUrl,
              headers := headersOr a.apiHeaders,
              params := paramsBase a.apiParams, body := some requestBody }
            a.apiParams
            ["extracted input text", "api call"]

/-- The observable outcome of one `process_yaml_with_api` call. -/
structure ProcessResult where
  success : Bool
  dispatched : Option Request
  paramsAfter : Option (List (String × PyVal))
  messages : List String

/-- The diagnostic printed by the matching `except` clause. -/
def errMessage : PyErr → String
  | .fileNotFound => "file not found"
  | .requestExc => "api call failed"
  | .yamlError => "yaml parse failed"
  | .otherExc => "unexpected failure"

/-- `process_yaml_with_api`: the `try` block wrapped in the `except`
clauses — every raised exception kind is mapped to the return value
`False` plus a printed diagnostic; nothing propagates to the caller. -/
def processYamlWithApi (env : Env) (a : Args) : ProcessResult :=
  let t := tryBody env a
  match t.result with
  | .ok b =>
    { success := b, dispatched := t.dispatched, paramsAfter := t.paramsAfter,
      messages := t.messages }
  | .error e =>
    { success := false, dispatched := t.dispatched,
      paramsAfter := t.paramsAfter, messages := t.messages ++ [errMessage e] }

/-! ## Lookup facts about `dict.update` -/

theorem lookup_append (k : String) (l₁ l₂ : List (String × PyVal)) :
    (l₁ ++ l₂).lookup k =
      match l₁.lookup k with
      | some v => some v
      | none => l₂.lookup k := by
  induction l₁ with
  | nil => simp [List.lookup]
  | cons kv rest ih =>
    obtain ⟨k₁, v₁⟩ := kv
    cases hk : (k == k₁) <;> simp [List.lookup, hk, ih]

theorem lookup_mapUpdate (b : List (String × PyVal)) (k : String) :
    ∀ a : List (String × PyVal),
      (a.map (fun kv =>
        match b.lookup kv.1 with
        | some v => (kv.1, v)
        | none => kv)).lookup k =
      match a.lookup k with
      | none => none
      | some v =>
        match b.lookup k with
        | some w => some w
        | none => some v := by
  intro a
  induction a with
  | nil => simp [List.lookup]
  | cons kv rest ih =>
    obtain ⟨k₁, v₁⟩ := kv
    cases hk : (k == k₁)
    · cases hb : b.lookup k₁ <;> simp [List.lookup, hk, ih, hb]
    · have hEq : k = k₁ := by simpa using hk
      subst hEq
      cases hb : b.lookup k <;> simp [List.lookup, hk, hb]

theorem lookup_filter_of_none (a : List (String × PyVal)) (k : String)
    (hk : a.lookup k = none) :
    ∀ b : List (String × PyVal),
      (b.filter (fun kv => (a.lookup kv.1).isNone)).lookup k =
        b.lookup k := by
  intro b
  induction b with
  | nil => rfl
  | cons kv rest ih =>
    obtain ⟨k₁, w₁⟩ := kv
    cases hkk : (k == k₁)
    · cases hf : (a.lookup k₁).isNone <;>
        simp [List.filter_cons, hf, List.lookup, hkk, ih]
    · have hEq : k = k₁ := by simpa using hkk
      subst hEq
      have hf : (a.lookup k).isNone = true := by simp [hk]
      simp [List.filter_cons, hf, List.lookup, hkk]

theorem lookup_filter_of_some (a : List (String × PyVal)) (k : String)
    (v : PyVal) (hk : a.lookup k = some v) :
    ∀ b : List (String × PyVal),
      (b.filter (fun kv => (a.lookup kv.1).isNone)).lookup k = none := by
  intro b
  induction b with
  | nil => rfl
  | cons kv rest ih =>
    obtain ⟨k₁, w₁⟩ := kv
    cases hkk : (k == k₁)
    · cases hf : (a.lookup k₁).isNone <;>
        simp [List.filter_cons, hf, List.lookup, hkk, ih]
    · have hEq : k = k₁ := by simpa using hkk
      subst hEq
      have hf : (a.lookup k).isNone = false := by simp [hk]
      simp [List.filter_cons, hf, ih]

/-- The defining property of `dict.update`: after `a.update(b)`, a key maps
to `b`'s value when `b` has it, and to `a`'s prior value otherwise — the
updating dictionary wins every collision. -/
theorem lookup_dictUpdate (a b : List (String × PyVal)) (k : String) :
    (dictUpdate a b).lookup k =
      match b.lookup k with
      | some w => some w
      | none => a.lookup k := by
  unfold dictUpdate
  cases ha : a.lookup k with
  | none =>
    rw [lookup_append, lookup_mapUpdate, ha,
      lookup_filter_of_none a k ha b]
    cases hb : b.lookup k <;> simp
  | some v =>
    rw [lookup_append, lookup_mapUpdate, ha]
    cases hb : b.lookup k <;> simp

/-! ## Field computations of the Bridge model -/

theorem finishDispatch_dispatched (env : Env) (a : Args) (req : Request)
    (pa : Option (List (String × PyVal))) (msgs : List String) :
    (finishDispatch env a req pa msgs).dispatched = some req := by
  unfold finishDispatch
  split
  · rfl
  · split <;> rfl

theorem finishDispatch_paramsAfter (env : Env) (a : Args) (req : Request)
    (pa : Option (List (String × PyVal))) (msgs : List String) :
    (finishDispatch env a req pa msgs).paramsAfter = pa := by
  unfold finishDispatch
  split
  · rfl
  · split <;> rfl

theorem finishDispatch_messages (env : Env) (a : Args) (req : Request)
    (pa : Option (List (String × PyVal))) (msgs : List String)
    (h : msgs ≠ []) :
    (finishDispatch env a req pa msgs).messages ≠ [] := by
  unfold finishDispatch
  split
  · exact h
  · split <;> simp

theorem processYamlWithApi_dispatched (env : Env) (a : Args) :
    (processYamlWithApi env a).dispatched = (tryBody env a).dispatched := by
  simp only [processYamlWithApi]
  cases hres : (tryBody env a).result <;> simp [hres]

theorem processYamlWithApi_paramsAfter (env : Env) (a : Args) :
    (processYamlWithApi env a).paramsAfter = (tryBody env a).paramsAfter := by
  simp only [processYamlWithApi]
  cases hres : (tryBody env a).result <;> simp [hres]

/-- The `try` block returns the normal value `False` only on the
extraction-miss path, which prints a diagnostic. -/
theorem tryBody_false_messages (env : Env) (a : Args) :
    (tryBody env a).result = .ok false → (tryBody env a).messages ≠ [] := by
  unfold tryBody
  cases env.readFile with
  | error e => intro h; exact absurd h (by simp)
  | ok d =>
    dsimp only
    cases hn : (getNestedValue d a.inputKeys).isNull
    · simp only [hn, Bool.false_eq_true, if_false]
      cases hb : buildBody a.requestBodyTemplate (getNestedValue d a.inputKeys) with
      | error e => intro h; exact absurd h (by simp)
      | ok requestBody =>
        by_cases hm : pyUpper a.apiMethod = "GET"
        · simp only [hm, if_true]
          cases requestBody with
          | dict bodyKvs =>
            intro _
            exact finishDispatch_messages _ _ _ _ _ (by simp)
          | null => intro h; exact absurd h (by simp)
          | bool b => intro h; exact absurd h (by simp)
          | int n => intro h; exact absurd h (by simp)
          | str s => intro h; exact absurd h (by simp)
          | list xs => intro h; exact absurd h (by simp)
        · simp only [hm, if_false]
          intro _
          exact finishDispatch_messages _ _ _ _ _ (by simp)
    · simp [hn]

/-- Claim C5: `process_yaml_with_api` never lets an exception reach its
caller — the model's `except` clauses are exhaustive over every modelled
failure (missing input file, malformed document, failed extraction,
template re-parse failure, network failure or non-2xx status, unparseable
response, write failure); the call returns `True` exactly when the whole
`try` block ran to completion returning `True`, and whenever it returns
`False` a printed diagnostic accompanies it. -/
theorem claim5_no_raise (env : Env) (a : Args) :
    ((processYamlWithApi env a).success = true ↔
      (tryBody env a).result = Except.ok true) ∧
    ((processYamlWithApi env a).success = false →
      (processYamlWithApi env a).messages ≠ []) := by
  constructor
  · simp only [processYamlWithApi]
    cases hres : (tryBody env a).result with
    | ok b => cases b <;> simp [hres]
    | error e => simp [hres]
  · simp only [processYamlWithApi]
    cases hres : (tryBody env a).result with
    | ok b =>
      cases b
      · intro _
        simpa using tryBody_false_messages env a hres
      · simp
    | error e => simp

/-- Claim C5, witness: a concrete call whose input file is missing returns
`False` with a non-empty diagnostic list. -/
theorem claim5_no_raise_witness :
    ((processYamlWithApi
        { readFile := Except.error PyErr.fileNotFound,
          respond := fun _ => Except.error PyErr.requestExc,
          write := fun _ => Except.ok () }
        { inputKeys := ["a"], outputKeys := ["x"], apiUrl := "http://svc",
          apiMethod := "POST", apiHeaders := none, apiParams := none,
          requestBodyTemplate := none }).success = false) ∧
    ((processYamlWithApi
        { readFile := Except.error PyErr.fileNotFound,
          respond := fun _ => Except.error PyErr.requestExc,
          write := fun _ => Except.ok () }
        { inputKeys := ["a"], outputKeys := ["x"], apiUrl := "http://svc",
          apiMethod := "POST", apiHeaders := none, apiParams := none,
          requestBodyTemplate := none }).messages ≠ []) := by
  refine ⟨?_, ?_⟩
  · have h := (claim5_no_raise
      { readFile := Except.error PyErr.fileNotFound,
        respond := fun _ => Except.error PyErr.requestExc,
        write := fun _ => Except.ok () }
      { inputKeys := ["a"], outputKeys := ["x"], apiUrl := "http://svc",
        apiMethod := "POST", apiHeaders := none, apiParams := none,
        requestBodyTemplate := none }).1
    by_contra hcon
    rw [Bool.not_eq_false] at hcon
    exact absurd (h.mp hcon) (by simp [tryBody])
  · exact (claim5_no_raise _ _).2 rfl

/-- Claim C9: when the input key path genuinely resolves to a stored
`null`, the Bridge cannot tell it from a missing key: `get_nested_value`
returns its not-found signal `None`, so `process_yaml_with_api` reports
failure and dispatches no HTTP request. -/
theorem claim9_null_conflation (env : Env) (a : Args) (d : PyVal)
    (hread : env.readFile = Except.ok d)
    (hres : resolves d a.inputKeys = some PyVal.null) :
    (processYamlWithApi env a).success = false ∧
    (processYamlWithApi env a).dispatched = none := by
  have hget : getNestedValue d a.inputKeys = PyVal.null :=
    getNestedValue_of_resolves d a.inputKeys PyVal.null hres
  simp [processYamlWithApi, tryBody, hread, hget, PyVal.isNull]

/-- Claim C9, witness: the document `{a: None}` with input path `[a]` makes
the call fail with no request dispatched. -/
theorem claim9_null_conflation_witness :
    (processYamlWithApi
      { readFile := Except.ok (PyVal.dict [("a", PyVal.null)]),
        respond := fun _ => Except.ok PyVal.null,
        write := fun _ => Except.ok () }
      { inputKeys := ["a"], outputKeys := ["x"], apiUrl := "http://svc",
        apiMethod := "POST", apiHeaders := none, apiParams := none,
        requestBodyTemplate := none }).success = false ∧
    (processYamlWithApi
      { readFile := Except.ok (PyVal.dict [("a", PyVal.null)]),
        respond := fun _ => Except.ok PyVal.null,
        write := fun _ => Except.ok () }
      { inputKeys := ["a"], outputKeys := ["x"], apiUrl := "http://svc",
        apiMethod := "POST", apiHeaders := none, apiParams := none,
        requestBodyTemplate := none }).dispatched = none :=
  claim9_null_conflation _ _ (PyVal.dict [("a", PyVal.null)]) rfl rfl

/-- Claim C7: with an upper-cased method equal to `GET`, the dispatched
request carries no body and its query parameters are the caller's
parameters updated with the constructed body fields — body fields winning
every key collision; with any other method the body is sent as the payload
and the explicit query parameters travel alongside unchanged. -/
theorem claim7_get_merge (env : Env) (a : Args) (d b : PyVal)
    (hread : env.readFile = Except.ok d)
    (hval : (getNestedValue d a.inputKeys).isNull = false)
    (hbody : buildBody a.requestBodyTemplate (getNestedValue d a.inputKeys) =
      Except.ok b) :
    (∀ bodyKvs, pyUpper a.apiMethod = "GET" → b = PyVal.dict bodyKvs →
      ∃ req, (processYamlWithApi env a).dispatched = some req ∧
        req.body = none ∧
        req.params = dictUpdate (paramsBase a.apiParams) bodyKvs ∧
        ∀ k, req.params.lookup k =
          match bodyKvs.lookup k with
          | some w => some w
          | none => (paramsBase a.apiParams).lookup k) ∧
    (pyUpper a.apiMethod ≠ "GET" →
      ∃ req, (processYamlWithApi env a).dispatched = some req ∧
        req.body = some b ∧ req.params = paramsBase a.apiParams) := by
  constructor
  · intro bodyKvs hm hb
    subst hb
    refine ⟨{ method := "GET", url := a.apiUrl,
              headers := headersOr a.apiHeaders,
              params := dictUpdate (paramsBase a.apiParams) bodyKvs,
              body := none }, ?_, rfl, rfl, ?_⟩
    · rw [processYamlWithApi_dispatched]
      simp [tryBody, hread, hval, hbody, hm, finishDispatch_dispatched]
    · intro k
      exact lookup_dictUpdate (paramsBase a.apiParams) bodyKvs k
  · intro hm
    refine ⟨{ method := pyUpper a.apiMethod, url := a.apiUrl,
              headers := headersOr a.apiHeaders,
              params := paramsBase a.apiParams,
              body := some b }, ?_, rfl, rfl⟩
    rw [processYamlWithApi_dispatched]
    simp [tryBody, hread, hval, hbody, hm, finishDispatch_dispatched]

/-- The environment of the C7/C10 witnesses: input document `{a: "v"}`, a
service answering `null`, a writable output. -/
def envW7 : Env :=
  { readFile := Except.ok (PyVal.dict [("a", PyVal.str "v")]),
    respond := fun _ => Except.ok PyVal.null,
    write := fun _ => Except.ok () }

/-- The arguments of the C7/C10 witnesses: lower-case method `get` (the
code upper-cases it), caller parameters `{"q": 1}`, no template. -/
def argsW7 : Args :=
  { inputKeys := ["a"], outputKeys := ["x"], apiUrl := "http://svc",
    apiMethod := "get", apiHeaders := none,
    apiParams := some [("q", PyVal.int 1)],
    requestBodyTemplate := none }

/-- Claim C7, witness: with method `get`, document `{a: "v"}` and caller
parameters `{"q": 1}`, a request is dispatched (its shape is pinned down
by the theorem applied here). -/
theorem claim7_get_merge_witness :
    ((processYamlWithApi envW7 argsW7).dispatched).isSome = true := by
  obtain ⟨req, hreq, -, -, -⟩ :=
    (claim7_get_merge envW7 argsW7 (PyVal.dict [("a", PyVal.str "v")])
      (PyVal.dict [("text", PyVal.str "v")]) rfl rfl rfl).1
      [("text", PyVal.str "v")] (by decide) rfl
  rw [hreq]
  rfl

/-- Claim C10: on the GET path with a caller-supplied non-empty parameter
dictionary, `params = api_params or {}` aliases the caller's object and
`params.update(request_body)` writes the constructed body fields through
into it (overwriting colliding keys): after the call the caller's
`api_params` holds the merged content, not its original content. -/
theorem claim10_params_mutation (env : Env) (a : Args) (d : PyVal)
    (p bodyKvs : List (String × PyVal))
    (hread : env.readFile = Except.ok d)
    (hval : (getNestedValue d a.inputKeys).isNull = false)
    (hbody : buildBody a.requestBodyTemplate (getNestedValue d a.inputKeys) =
      Except.ok (PyVal.dict bodyKvs))
    (hm : pyUpper a.apiMethod = "GET")
    (hp : a.apiParams = some p) (hne : p ≠ []) :
    (processYamlWithApi env a).paramsAfter = some (dictUpdate p bodyKvs) ∧
    ∀ k w, bodyKvs.lookup k = some w →
      (dictUpdate p bodyKvs).lookup k = some w := by
  constructor
  · rw [processYamlWithApi_paramsAfter]
    cases p with
    | nil => exact absurd rfl hne
    | cons x xs =>
      simp [tryBody, hread, hval, hbody, hm, hp, finishDispatch_paramsAfter,
        paramsAfterGet]
  · intro k w hw
    rw [lookup_dictUpdate]
    simp [hw]

/-- Claim C10, witness: caller parameters `{"q": 1}` hold the merged
content `{"q": 1, "text": "v"}` after the call — a different content from
the one supplied. -/
theorem claim10_params_mutation_witness :
    (processYamlWithApi envW7 argsW7).paramsAfter =
      some [("q", PyVal.int 1), ("text", PyVal.str "v")] ∧
    argsW7.apiParams = some [("q", PyVal.int 1)] := by
  have h := claim10_params_mutation envW7 argsW7
    (PyVal.dict [("a", PyVal.str "v")]) [("q", PyVal.int 1)]
    [("text", PyVal.str "v")] rfl rfl rfl (by decide) rfl (by simp)
  exact ⟨h.1.trans rfl, rfl⟩

/-! ## The File Locator: `update_file_paths` and `update_file_paths_advanced`

The DataFrame is reduced to what the two functions touch: presence of the
`test_idx` column, presence of the target column, and per row the
stringified identifier plus the target cell (`none` = absent/NaN).  The
search path is a `PathState`; a directory carries its entries in
enumeration order.  `str(path.absolute())` is modelled with the search
directory taken as an absolute path.  Raised errors carry the DataFrame
content at raise time, since the table is mutated in place. -/

/-- One directory entry: its file name and whether it is a regular file. -/
structure Entry where
  name : String
  isFile : Bool
  deriving DecidableEq

/-- One DataFrame row: the stringified `test_idx` value and the
target-column cell. -/
structure Row where
  testIdx : String
  cell : Option String
  deriving DecidableEq

/-- The DataFrame shape the Locator sees. -/
structure Df where
  hasTestIdx : Bool
  hasTarget : Bool
  rows : List Row
  deriving DecidableEq

/-- The state of the search path on the file system. -/
inductive PathState where
  | missing
  | file
  | dir (entries : List Entry)
  deriving DecidableEq

/-- The exceptions raised by the Locator: `ValueError` for a missing
column, `FileNotFoundError` for a missing search path,
`NotADirectoryError` when the path is not a directory. -/
inductive LocErr where
  | valueError
  | fileNotFound
  | notADirectory
  deriving DecidableEq

/-- Index of the last `'.'` in a name, if any. -/
def lastDotIdx (cs : List Char) : Option Nat :=
  ((List.range cs.length).filter (fun i => cs.getD i ' ' = '.')).getLast?

/-- `pathlib.PurePath.stem`: the name without its final extension; the
split happens only when the last dot is neither leading nor trailing. -/
def pyStem (name : String) : String :=
  match lastDotIdx name.data with
  | some i =>
    if 0 < i ∧ i < name.data.length - 1 then String.mk (name.data.take i)
    else name
  | none => name

/-- `pathlib.PurePath.suffix`: the final extension with its dot, or empty
under the same condition as `pyStem`. -/
def pySuffix (name : String) : String :=
  match lastDotIdx name.data with
  | some i =>
    if 0 < i ∧ i < name.data.length - 1 then String.mk (name.data.drop i)
    else ""
  | none => ""

/-- Python `str.lower()` (ASCII suffices for file extensions). -/
def pyLower (s : String) : String := String.mk (s.data.map Char.toLower)

/-- `str(file_path.absolute())` for an entry of the search directory. -/
def absPath (dirPath name : String) : String := dirPath ++ "/" ++ name

/-- The base variant's matching files for one row, in enumeration order:
regular files whose stem starts with the pattern (outer check) and equals
it exactly (inner check). -/
def baseMatches (entries : List Entry) (pattern : String) : List Entry :=
  entries.filter (fun e =>
    e.isFile && isPre pattern.data (pyStem e.name).data &&
      (pyStem e.name == pattern))

/-- One row of the base variant: the first match in enumeration order gets
its absolute path written; no match leaves the row untouched. -/
def baseRow (entries : List Entry) (dirPath pre : String) (r : Row) : Row :=
  match baseMatches entries (pre ++ r.testIdx) with
  | [] => r
  | e :: _ => { r with cell := some (absPath dirPath e.name) }

/-- `update_file_paths(df, target_col, target_dir, prefix)`: column checks,
existence check, directory check, then the per-row search. -/
def updateFilePaths (df : Df) (dirPath : String) (dirSt : PathState)
    (pre : String) : Except (LocErr × Df) Df :=
  if !df.hasTestIdx then .error (.valueError, df)
  else if !df.hasTarget then .error (.valueError, df)
  else
    match dirSt with
    | .missing => .error (.fileNotFound, df)
    | .file => .error (.notADirectory, df)
    | .dir entries =>
      .ok { df with rows := df.rows.map (baseRow entries dirPath pre) }

/-- Extension normalisation of the advanced variant: lower-case each entry
and ensure a leading dot; applied only to a truthy (non-empty) list. -/
def normalizeExts (exts : List String) : List String :=
  if exts.isEmpty then exts
  else exts.map (fun e =>
    if isPre ".".data e.data then pyLower e else "." ++ pyLower e)

/-- The advanced variant's matching files for one row: regular files whose
stem equals the pattern exactly, filtered by the normalised extension list
when one is given. -/
def advMatches (entries : List Entry) (pattern : String)
    (exts : List String) : List Entry :=
  entries.filter (fun e =>
    e.isFile && (pyStem e.name == pattern) &&
      (exts.isEmpty || exts.contains (pyLower (pySuffix e.name))))

/-- Whether a file carries the given (normalised) extension. -/
def carriesExt (ext : String) (e : Entry) : Bool :=
  pyLower (pySuffix e.name) == ext

/-- Lexicographic order on char lists (Python `str <`). -/
def clLt : List Char → List Char → Bool
  | [], [] => false
  | [], _ :: _ => true
  | _ :: _, [] => false
  | a :: as, b :: bs => if a < b then true else (a == b && clLt as bs)

/-- Insertion step of `sorted` by file name. -/
def insertByName (x : Entry) : List Entry → List Entry
  | [] => [x]
  | y :: ys =>
    if clLt y.name.data x.name.data then y :: insertByName x ys
    else x :: y :: ys

/-- `sorted(matching_files)` by file name (entries share one directory, so
path order is name order). -/
def sortByName : List Entry → List Entry
  | [] => []
  | x :: xs => insertByName x (sortByName xs)

/-- Selection among matches in the advanced variant: with an extension
list, scan it in its given order and take the first matching file carrying
the first extension that yields any match (the `for … break` /
`for … else` nest); without one, take the lexicographically first name. -/
def advSelect (ms : List Entry) (exts : List String) : Option Entry :=
  if exts.isEmpty then (sortByName ms).head?
  else
    match exts.find? (fun ext => ms.any (carriesExt ext)) with
    | some ext => ms.find? (carriesExt ext)
    | none => none

/-- One row of the advanced variant. -/
def advRow (entries : List Entry) (dirPath pre : String)
    (exts : List String) (r : Row) : Row :=
  match advMatches entries (pre ++ r.testIdx) exts with
  | [] => r
  | m :: ms =>
    match advSelect (m :: ms) exts with
    | some e => { r with cell := some (absPath dirPath e.name) }
    | none => r

/-- Target-column handling of the advanced variant: auto-create the column
with every cell absent when missing and allowed; `none` is the
`ValueError` raise. -/
def ensureTarget (df : Df) (create : Bool) : Option Df :=
  if df.hasTarget then some df
  else if create then
    some { df with hasTarget := true,
                   rows := df.rows.map (fun r => { r with cell := none }) }
  else none

/-- `update_file_paths_advanced(df, target_col, target_dir, prefix,
file_extensions, create_column)`: `test_idx` check, target-column check or
creation, an existence check on the search path — but no explicit
directory check: `NotADirectoryError` can only come out of the lazy
`target_dir.iterdir()` inside the per-row loop, hence only when the table
has at least one row.  A `None` extension list and an empty one behave
identically (both falsy), so both are modelled by `[]`. -/
def updateFilePathsAdvanced (df : Df) (dirPath : String)
    (dirSt : PathState) (pre : String) (exts : List String)
    (create : Bool) : Except (LocErr × Df) Df :=
  if !df.hasTestIdx then .error (.valueError, df)
  else
    match ensureTarget df create with
    | none => .error (.valueError, df)
    | some df₁ =>
      match dirSt with
      | .missing => .error (.fileNotFound, df₁)
      | .file =>
        match df₁.rows with
        | [] => .ok df₁
        | _ :: _ => .error (.notADirectory, df₁)
      | .dir entries =>
        .ok { df₁ with
                rows := df₁.rows.map
                  (advRow entries dirPath pre (normalizeExts exts)) }

/-! ## Facts about selection and the Locator's row updates -/

theorem insertByName_ne_nil (x : Entry) :
    ∀ l : List Entry, insertByName x l ≠ [] := by
  intro l
  cases l with
  | nil => simp [insertByName]
  | cons y ys =>
    simp only [insertByName]
    split <;> simp

theorem sortByName_ne_nil (m : Entry) (ms : List Entry) :
    sortByName (m :: ms) ≠ [] := by
  simp only [sortByName]
  exact insertByName_ne_nil m (sortByName ms)

/-- `find?` returns the element at the first index satisfying the
predicate. -/
theorem find?_eq_of_first {α : Type} (p : α → Bool) :
    ∀ (l : List α) (j : Nat) (x : α),
      l.get? j = some x → p x = true →
      (∀ j' y, j' < j → l.get? j' = some y → p y = false) →
      l.find? p = some x := by
  intro l
  induction l with
  | nil => intro j x h _ _; simp at h
  | cons a as ih =>
    intro j x hj hp hbefore
    cases j with
    | zero =>
      simp only [List.get?_cons_zero] at hj
      injection hj with hj
      subst hj
      simp [List.find?, hp]
    | succ j' =>
      have ha : p a = false := hbefore 0 a (Nat.succ_pos _) rfl
      simp only [List.get?_cons_succ] at hj
      simp only [List.find?, ha]
      exact ih j' x hj hp
        (fun j'' y hlt hy => hbefore (j'' + 1) y (by omega) (by simpa using hy))

/-- A non-empty match list always yields a selection in the advanced
variant: with extensions, every match carries some listed extension, so
the extension scan succeeds; without, the sorted list has a head. -/
theorem advSelect_isSome_of_matches (entries : List Entry)
    (pattern : String) (exts : List String) (m : Entry) (ms : List Entry)
    (hma : advMatches entries pattern exts = m :: ms) :
    ∃ e, advSelect (m :: ms) exts = some e := by
  by_cases hempty : exts.isEmpty = true
  · unfold advSelect
    rw [if_pos hempty]
    cases hs : sortByName (m :: ms) with
    | nil => exact absurd hs (sortByName_ne_nil m ms)
    | cons e es => exact ⟨e, by simp⟩
  · have hmem : m ∈ advMatches entries pattern exts := by
      rw [hma]; exact List.mem_cons_self m ms
    have hpred := (List.mem_filter.mp hmem).2
    have hcont : exts.contains (pyLower (pySuffix m.name)) = true := by
      rcases Bool.and_eq_true_iff.mp hpred with ⟨-, hor⟩
      rcases Bool.or_eq_true_iff.mp hor with h | h
      · exact absurd h hempty
      · exact h
    have hextmem : pyLower (pySuffix m.name) ∈ exts := by
      simpa using hcont
    have hex : ∃ ext, ext ∈ exts ∧ (m :: ms).any (carriesExt ext) = true :=
      ⟨pyLower (pySuffix m.name), hextmem, by simp [carriesExt]⟩
    have hfs : (exts.find? (fun ext => (m :: ms).any (carriesExt ext))).isSome :=
      List.find?_isSome.mpr (by
        obtain ⟨ext, hm1, hm2⟩ := hex
        exact ⟨ext, hm1, hm2⟩)
    unfold advSelect
    rw [if_neg hempty]
    cases hf : exts.find? (fun ext => (m :: ms).any (carriesExt ext)) with
    | none => rw [hf] at hfs; simp at hfs
    | some ext =>
      have hpe : (m :: ms).any (carriesExt ext) = true :=
        @List.find?_some String (fun e => (m :: ms).any (carriesExt e))
          ext exts hf
      have hex2 : ∃ x, x ∈ (m :: ms) ∧ carriesExt ext x = true := by
        simpa [List.any_eq_true] using hpe
      have hfs2 : ((m :: ms).find? (carriesExt ext)).isSome :=
        List.find?_isSome.mpr hex2
      cases hff : (m :: ms).find? (carriesExt ext) with
      | none => rw [hff] at hfs2; simp at hfs2
      | some e => exact ⟨e, by simp [hff]⟩

/-- Inversion of a successful base-variant run: the rows are the per-row
map of the search. -/
theorem base_rows_of_ok (df : Df) (dirPath pre : String)
    (entries : List Entry) (dfB : Df)
    (hidx : df.hasTestIdx = true) (htgt : df.hasTarget = true)
    (hB : updateFilePaths df dirPath (PathState.dir entries) pre =
      Except.ok dfB) :
    dfB.rows = df.rows.map (baseRow entries dirPath pre) := by
  unfold updateFilePaths at hB
  simp [hidx, htgt] at hB
  rw [← hB]

/-- Inversion of a successful advanced-variant run on a pre-existing target
column. -/
theorem advanced_rows_of_ok (df : Df) (dirPath pre : String)
    (entries : List Entry) (exts : List String) (create : Bool) (dfA : Df)
    (hidx : df.hasTestIdx = true) (htgt : df.hasTarget = true)
    (hA : updateFilePathsAdvanced df dirPath (PathState.dir entries) pre
      exts create = Except.ok dfA) :
    dfA.rows = df.rows.map (advRow entries dirPath pre (normalizeExts exts)) := by
  have hens : ensureTarget df create = some df := by
    simp [ensureTarget, htgt]
  unfold updateFilePathsAdvanced at hA
  simp [hidx, hens] at hA
  rw [← hA]

/-- Claim C2, counterexample: the advanced variant has no explicit
directory check; on a table with zero rows the lazy `iterdir()` is never
consumed, so a search path that exists but is a plain file makes the call
return normally — it does not raise `NotADirectoryError`. -/
theorem claim2_counterexample :
    updateFilePathsAdvanced
      { hasTestIdx := true, hasTarget := true, rows := [] } "/d"
      PathState.file "run_" [] true =
      Except.ok { hasTestIdx := true, hasTarget := true, rows := [] } := rfl

/-- Claim C2 (amended): the base variant checks both directory
preconditions up front — a missing search path raises `FileNotFoundError`
and a non-directory path raises `NotADirectoryError`, both before any row
is touched.  The advanced variant raises `FileNotFoundError` on a missing
path (after the target-column handling), but performs no explicit
directory check: with a path that exists but is not a directory it raises
`NotADirectoryError` out of the first row's directory listing — before any
target cell is written — and only when the table has at least one row; a
rowless table completes without error. -/
theorem claim2_amended (df df₁ : Df) (dirPath pre : String)
    (exts : List String) (create : Bool) (hidx : df.hasTestIdx = true) :
    (df.hasTarget = true →
      updateFilePaths df dirPath PathState.missing pre =
        Except.error (LocErr.fileNotFound, df) ∧
      updateFilePaths df dirPath PathState.file pre =
        Except.error (LocErr.notADirectory, df)) ∧
    (ensureTarget df create = some df₁ →
      (updateFilePathsAdvanced df dirPath PathState.missing pre exts create =
        Except.error (LocErr.fileNotFound, df₁)) ∧
      (df₁.rows ≠ [] →
        updateFilePathsAdvanced df dirPath PathState.file pre exts create =
          Except.error (LocErr.notADirectory, df₁)) ∧
      (df₁.rows = [] →
        updateFilePathsAdvanced df dirPath PathState.file pre exts create =
          Except.ok df₁)) := by
  constructor
  · intro ht
    constructor <;> simp [updateFilePaths, hidx, ht]
  · intro hens
    refine ⟨?_, ?_, ?_⟩
    · simp [updateFilePathsAdvanced, hidx, hens]
    · intro hne
      cases hrows : df₁.rows with
      | nil => exact absurd hrows hne
      | cons r rs => simp [updateFilePathsAdvanced, hidx, hens, hrows]
    · intro hnil
      simp [updateFilePathsAdvanced, hidx, hens, hnil]

/-- A small table with a pre-existing target column for the C2 and C8
witnesses. -/
def dfTwo : Df :=
  { hasTestIdx := true, hasTarget := true,
    rows := [{ testIdx := "7", cell := none },
             { testIdx := "8", cell := some "keep" }] }

/-- Claim C2 (amended), witness: on a concrete table, the base variant
raises `NotADirectoryError` on a file path up front, while the advanced
variant (whose table has rows) raises it from the row loop. -/
theorem claim2_amended_witness :
    updateFilePaths dfTwo "/d" PathState.file "run_" =
      Except.error (LocErr.notADirectory, dfTwo) ∧
    updateFilePathsAdvanced dfTwo "/d" PathState.file "run_" [] true =
      Except.error (LocErr.notADirectory, dfTwo) := by
  have h := claim2_amended dfTwo dfTwo "/d" "run_" [] true rfl
  exact ⟨(h.1 rfl).2, (h.2 (by rfl)).2.1 (by simp [dfTwo])⟩

/-- Claim C8: on a successful run over a directory, both variants leave a
row without a matching file holding exactly its prior content (an absent
cell stays absent), and write the selected file's absolute path (as text)
into a row with a match. -/
theorem claim8_frame (df : Df) (dirPath pre : String) (entries : List Entry)
    (exts : List String) (create : Bool) (dfB dfA : Df) (i : Nat) (r : Row)
    (hidx : df.hasTestIdx = true) (htgt : df.hasTarget = true)
    (hB : updateFilePaths df dirPath (PathState.dir entries) pre =
      Except.ok dfB)
    (hA : updateFilePathsAdvanced df dirPath (PathState.dir entries) pre
      exts create = Except.ok dfA)
    (hr : df.rows.get? i = some r) :
    (baseMatches entries (pre ++ r.testIdx) = [] →
      dfB.rows.get? i = some r) ∧
    (∀ e ms, baseMatches entries (pre ++ r.testIdx) = e :: ms →
      dfB.rows.get? i =
        some { r with cell := some (absPath dirPath e.name) }) ∧
    (advMatches entries (pre ++ r.testIdx) (normalizeExts exts) = [] →
      dfA.rows.get? i = some r) ∧
    (advMatches entries (pre ++ r.testIdx) (normalizeExts exts) ≠ [] →
      ∃ e, advSelect (advMatches entries (pre ++ r.testIdx)
            (normalizeExts exts)) (normalizeExts exts) = some e ∧
        dfA.rows.get? i =
          some { r with cell := some (absPath dirPath e.name) }) := by
  have hBrows := base_rows_of_ok df dirPath pre entries dfB hidx htgt hB
  have hArows := advanced_rows_of_ok df dirPath pre entries exts create dfA
    hidx htgt hA
  refine ⟨?_, ?_, ?_, ?_⟩
  · intro hnone
    rw [hBrows, List.get?_map, hr]
    simp [baseRow, hnone]
  · intro e ms hcons
    rw [hBrows, List.get?_map, hr]
    simp [baseRow, hcons]
  · intro hnone
    rw [hArows, List.get?_map, hr]
    simp [advRow, hnone]
  · intro hne
    cases hma : advMatches entries (pre ++ r.testIdx) (normalizeExts exts) with
    | nil => exact absurd hma hne
    | cons m ms' =>
      obtain ⟨e, he⟩ := advSelect_isSome_of_matches entries
        (pre ++ r.testIdx) (normalizeExts exts) m ms' hma
      refine ⟨e, ?_, ?_⟩
      · exact he
      · rw [hArows, List.get?_map, hr]
        simp [advRow, hma, he]

/-- The search results of the C8 witness: `run_7.csv` matches row `7`
while row `8` has no matching file. -/
def entries8 : List Entry := [{ name := "run_7.csv", isFile := true }]

/-- The table produced by both Locator variants in the C8 witness. -/
def dfRes8 : Df :=
  { hasTestIdx := true, hasTarget := true,
    rows := [{ testIdx := "7", cell := some (absPath "/d" "run_7.csv") },
             { testIdx := "8", cell := some "keep" }] }

/-- Claim C8, witness: the matched row receives the absolute path, the
unmatched row keeps its prior cell value. -/
theorem claim8_frame_witness :
    dfRes8.rows.get? 1 = some { testIdx := "8", cell := some "keep" } ∧
    dfRes8.rows.get? 0 =
      some { testIdx := "7", cell := some (absPath "/d" "run_7.csv") } := by
  have h1 := claim8_frame dfTwo "/d" "run_" entries8 [] true dfRes8 dfRes8 1
    { testIdx := "8", cell := some "keep" } rfl rfl rfl rfl rfl
  have h0 := claim8_frame dfTwo "/d" "run_" entries8 [] true dfRes8 dfRes8 0
    { testIdx := "7", cell := none } rfl rfl rfl rfl rfl
  exact ⟨h1.1 (by decide),
    h0.2.1 { name := "run_7.csv", isFile := true } [] (by decide)⟩

/-- A one-row table whose identifier is `7`, for the C3 fixture. -/
def dfOne : Df :=
  { hasTestIdx := true, hasTarget := true,
    rows := [{ testIdx := "7", cell := none }] }

/-- The C3 directory in csv-first enumeration order. -/
def esW1 : List Entry :=
  [{ name := "run_7.csv", isFile := true },
   { name := "run_7.json", isFile := true }]

/-- The C3 directory in json-first enumeration order. -/
def esW2 : List Entry :=
  [{ name := "run_7.json", isFile := true },
   { name := "run_7.csv", isFile := true }]

/-- The table produced in the C3 scenario: `run_7.json` wins. -/
def dfSel : Df :=
  { hasTestIdx := true, hasTarget := true,
    rows := [{ testIdx := "7", cell := some (absPath "/data" "run_7.json") }] }

/-- Claim C3: in the advanced variant with a non-empty extension list,
selection is by extension priority: if `ext` sits at position `j` of the
normalised list, no earlier listed extension is carried by any matching
file, and the first matching file carrying `ext` is `f`, then the row's
cell receives `f`'s absolute path.  In particular, over a directory
holding `run_7.csv` and `run_7.json` in either enumeration order, with
allowed extensions `[".json", ".csv"]`, the selected file is
`run_7.json`. -/
theorem claim3_extension_priority (df : Df) (dirPath pre : String)
    (entries : List Entry) (exts : List String) (create : Bool)
    (dfA : Df) (i : Nat) (r : Row)
    (hidx : df.hasTestIdx = true) (htgt : df.hasTarget = true)
    (hA : updateFilePathsAdvanced df dirPath (PathState.dir entries) pre
      exts create = Except.ok dfA)
    (hr : df.rows.get? i = some r) :
    (∀ j ext, (normalizeExts exts).get? j = some ext →
      (∀ j' ext', j' < j → (normalizeExts exts).get? j' = some ext' →
        ∀ f ∈ advMatches entries (pre ++ r.testIdx) (normalizeExts exts),
          carriesExt ext' f = false) →
      ∀ f, (advMatches entries (pre ++ r.testIdx)
          (normalizeExts exts)).find? (carriesExt ext) = some f →
        dfA.rows.get? i =
          some { r with cell := some (absPath dirPath f.name) }) ∧
    (∀ es, (es = esW1 ∨ es = esW2) → ∀ dfA',
      updateFilePathsAdvanced dfOne "/data" (PathState.dir es) "run_"
        [".json", ".csv"] true = Except.ok dfA' →
      dfA'.rows =
        [{ testIdx := "7", cell := some (absPath "/data" "run_7.json") }]) := by
  have hArows := advanced_rows_of_ok df dirPath pre entries exts create dfA
    hidx htgt hA
  constructor
  · intro j ext hget hbefore f hfind
    have hfmem : f ∈ advMatches entries (pre ++ r.testIdx)
        (normalizeExts exts) := List.mem_of_find?_eq_some hfind
    have hne : normalizeExts exts ≠ [] := by
      intro hnil
      rw [hnil] at hget
      simp at hget
    have hempty : (normalizeExts exts).isEmpty = false := by
      cases hx : normalizeExts exts with
      | nil => exact absurd hx hne
      | cons a as => rfl
    have hfound : (normalizeExts exts).find?
        (fun e => (advMatches entries (pre ++ r.testIdx)
          (normalizeExts exts)).any (carriesExt e)) = some ext := by
      refine find?_eq_of_first _ (normalizeExts exts) j ext hget ?_ ?_
      · have hcarry : carriesExt ext f = true := List.find?_some hfind
        exact List.any_eq_true.mpr ⟨f, hfmem, hcarry⟩
      · intro j' y hlt hy
        have hall := hbefore j' y hlt hy
        by_contra hcon
        rw [Bool.not_eq_false, List.any_eq_true] at hcon
        obtain ⟨g, hg1, hg2⟩ := hcon
        rw [hall g hg1] at hg2
        exact absurd hg2 (by simp)
    cases hma : advMatches entries (pre ++ r.testIdx) (normalizeExts exts) with
    | nil => rw [hma] at hfmem; simp at hfmem
    | cons m ms' =>
      have hsel : advSelect (m :: ms') (normalizeExts exts) = some f := by
        unfold advSelect
        rw [if_neg (by simp [hempty]), ← hma, hfound, hma]
        rw [hma] at hfind
        exact hfind
      rw [hArows, List.get?_map, hr]
      simp [advRow, hma, hsel]
  · intro es hes dfA' hA'
    rcases hes with rfl | rfl
    · have hcomp : updateFilePathsAdvanced dfOne "/data" (PathState.dir esW1)
          "run_" [".json", ".csv"] true = Except.ok dfSel := by rfl
      rw [hcomp] at hA'
      rw [← Except.ok.inj hA']
      rfl
    · have hcomp : updateFilePathsAdvanced dfOne "/data" (PathState.dir esW2)
          "run_" [".json", ".csv"] true = Except.ok dfSel := by rfl
      rw [hcomp] at hA'
      rw [← Except.ok.inj hA']
      rfl

/-- Claim C3, witness: on the csv-first enumeration with extensions
`[".json", ".csv"]`, the extension-priority rule selects `run_7.json` and
the row's cell holds its absolute path. -/
theorem claim3_extension_priority_witness :
    dfSel.rows.get? 0 =
      some { testIdx := "7",
             cell := some (absPath "/data" "run_7.json") } := by
  exact (claim3_extension_priority dfOne "/data" "run_" esW1
      [".json", ".csv"] true dfSel 0 { testIdx := "7", cell := none }
      rfl rfl (by rfl) rfl).1 0 ".json" (by decide)
    (fun j' ext' hlt _ f _ => absurd hlt (Nat.not_lt_zero j'))
    { name := "run_7.json", isFile := true } (by decide)

end GenPipeline
